import Mathlib

/-!
Verification of the reddit harvesting repository.

The file embeds, as Lean definitions, the parts of the repository the
claims are about:

* `src/server/utils/reddit.ts` — the Reddit access-token cache
  (`getRedditAccessToken`, `tokenCache`, `TOKEN_EXPIRY_BUFFER`).
* `src/server/api/analyze-subreddit.post.ts` — the request-limit cap,
  the comment accumulation loop, and `fetchPostComments`.
* `src/server/api/python-analysis/stats.get.ts` — the stats endpoint
  (placeholder response).
* The incremental checkpoint/delta harvesting core (planning, cursor
  walk, commit, reset, orchestration).  Its implementation
  (`harvest_reddit_enhanced.py`) is not part of the source tree here —
  only its documentation and its HTTP callers are — so those
  definitions are modelled from the specification, as marked in their
  doc comments.
-/

namespace RedditRepo

/-! ## Runtime configuration (from `nuxt.config.ts` / `reddit.ts`)

Credentials default to the empty string when unset
(`process.env.NUXT_REDDIT_CLIENT_ID || ... || ''`), so the JS
falsiness test `!clientId || !clientSecret` is emptiness of either
string. -/

structure RuntimeConfig where
  redditClientId : String
  redditClientSecret : String
  deriving Repr, DecidableEq

/-- The JS falsiness check `!clientId || !clientSecret` from
`getRedditAccessToken` (`src/server/utils/reddit.ts`). -/
def credentialsMissing (rc : RuntimeConfig) : Prop :=
  rc.redditClientId = "" ∨ rc.redditClientSecret = ""

instance (rc : RuntimeConfig) : Decidable (credentialsMissing rc) := by
  unfold credentialsMissing; infer_instance

/-! ## Token cache (`src/server/utils/reddit.ts`) -/

/-- `interface CachedToken` — `expiresAt` is a millisecond timestamp. -/
structure CachedToken where
  accessToken : String
  expiresAt : Nat
  deriving Repr, DecidableEq

/-- `const TOKEN_EXPIRY_BUFFER = 60 * 1000`. -/
def TOKEN_EXPIRY_BUFFER : Nat := 60 * 1000

/-- Shape of the Reddit token endpoint response used by the code:
`{ access_token: string; expires_in: number }` (seconds). -/
structure TokenResponse where
  access_token : String
  expires_in : Nat
  deriving Repr, DecidableEq

/-- Outcome of the upstream `$fetch` of the token endpoint. -/
inductive TokenFetchOutcome where
  | success (r : TokenResponse)
  | failure (msg : String)
  deriving Repr, DecidableEq

/-- The fetch-new-token path of `getRedditAccessToken` (the code after
the cache check): credential check, upstream call, response check,
cache update `tokenCache = \x7b accessToken, expiresAt: now +
expires_in * 1000 \x7d`.  Returns the token together with the cache
state after the call. -/
def fetchNewToken (now : Nat) (rc : RuntimeConfig)
    (outcome : TokenFetchOutcome) : Except String (String × Option CachedToken) :=
  if rc.redditClientId = "" ∨ rc.redditClientSecret = "" then
    Except.error "Reddit API credentials are not configured."
  else
    match outcome with
    | TokenFetchOutcome.failure msg =>
        Except.error ("Failed to get Reddit access token: " ++ msg)
    | TokenFetchOutcome.success r =>
        if r.access_token = "" then
          Except.error "Failed to get Reddit access token: Failed to retrieve access token from Reddit."
        else
          Except.ok (r.access_token,
            some { accessToken := r.access_token
                   expiresAt := now + r.expires_in * 1000 })

/-- `getRedditAccessToken` from `src/server/utils/reddit.ts`.  The
module-level mutable `tokenCache` is passed in explicitly and the
possibly-updated cache is returned.  The cached token is returned when
`tokenCache.expiresAt > now + TOKEN_EXPIRY_BUFFER`. -/
def getRedditAccessToken (tokenCache : Option CachedToken) (now : Nat)
    (rc : RuntimeConfig) (outcome : TokenFetchOutcome) :
    Except String (String × Option CachedToken) :=
  match tokenCache with
  | some t =>
      if now + TOKEN_EXPIRY_BUFFER < t.expiresAt then
        Except.ok (t.accessToken, some t)
      else fetchNewToken now rc outcome
  | none => fetchNewToken now rc outcome

/-! ## Subreddit analysis endpoint (`src/server/api/analyze-subreddit.post.ts`) -/

/-- The fields of `RedditPost.data` the analysis pipeline reads. -/
structure RedditPost where
  id : String
  title : String
  selftext : String
  score : Int
  deriving Repr, DecidableEq

/-- The fields of `RedditComment.data` the analysis pipeline reads. -/
structure RedditComment where
  body : String
  score : Int
  deriving Repr, DecidableEq

/-- `body.limit` from the request body: absent is `none`; JS `||`
treats `0` like absent. -/
def jsNumOrDefault (x : Option Nat) (d : Nat) : Nat :=
  match x with
  | none => d
  | some 0 => d
  | some n => n

/-- `const limit = Math.min(body.limit || 50, 100)` — the number of
posts requested from the upstream listing. -/
def requestedPostLimit (bodyLimit : Option Nat) : Nat :=
  min (jsNumOrDefault bodyLimit 50) 100

/-- Outcome of the `$fetch` of the Reddit comments endpoint: either
the raw response array (the second element holds the comments
listing), or an error. -/
inductive CommentsFetchOutcome where
  | success (responseElems : List (List RedditComment))
  | failure (msg : String)
  deriving Repr, DecidableEq

/-- The comment filter inside `fetchPostComments`:
`comment.data.body && body !== deleted && body !== removed`
(an empty body is JS-falsy). -/
def keepComment (c : RedditComment) : Bool :=
  !(c.body == "") && !(c.body == "[deleted]") && !(c.body == "[removed]")

/-- `fetchPostComments` from `analyze-subreddit.post.ts`: on a
successful response whose array has more than one element, filter the
second element of the array; otherwise, and on any fetch error, return
the empty list. -/
def fetchPostComments (outcome : CommentsFetchOutcome) : List RedditComment :=
  match outcome with
  | CommentsFetchOutcome.failure _ => []
  | CommentsFetchOutcome.success responseElems =>
      match responseElems with
      | _ :: second :: _ => second.filter keepComment
      | _ => []

/-- `const topPosts = posts.slice(0, Math.min(10, posts.length))`. -/
def topPostsOf (posts : List RedditPost) : List RedditPost :=
  posts.take (min 10 posts.length)

/-- The comment accumulation loop: for each top post push
`comments.slice(0, 20)` onto `allComments`.  `commentsOf` gives the
result of `fetchPostComments` for each post. -/
def allCommentsOf (posts : List RedditPost)
    (commentsOf : RedditPost → List RedditComment) : List RedditComment :=
  (topPostsOf posts).foldl (fun acc p => acc ++ (commentsOf p).take 20) []

/-- `allComments.slice(0, 200)` — the comments included in the
analysis input. -/
def analysisCommentsOf (posts : List RedditPost)
    (commentsOf : RedditPost → List RedditComment) : List RedditComment :=
  (allCommentsOf posts commentsOf).take 200

/-! ## Stats endpoint (`src/server/api/python-analysis/stats.get.ts`) -/

/-- The `stats` object returned by the endpoint. -/
structure PythonAnalysisStats where
  totalPosts : Nat
  totalComments : Nat
  totalSubreddits : Nat
  subreddits : List String
  deriving Repr, DecidableEq

/-- The endpoint response shape. -/
structure StatsResponse where
  success : Bool
  stats : PythonAnalysisStats
  message : String
  deriving Repr, DecidableEq

/-- A snapshot of what is actually stored (harvested posts keyed by
(subreddit, post id), comments keyed by (post id, comment id), and the
known subreddits), used to state correctness of the reported counts. -/
structure StoreSnapshot where
  posts : List (String × String)
  comments : List (String × String)
  subredditNames : List String
  deriving Repr, DecidableEq

/-- The stats `defineEventHandler` from
`src/server/api/python-analysis/stats.get.ts`: it ignores whatever is
stored and returns fixed placeholder counts. -/
def statsHandler (_snapshot : StoreSnapshot) : StatsResponse :=
  { success := true
    stats := { totalPosts := 0, totalComments := 0, totalSubreddits := 0
               subreddits := [] }
    message := "Python analysis moved to external directory. Stats not available in this implementation." }

/-! ## Incremental harvesting core

Modelled from the spec: the checkpoint/delta engine
(`harvest_reddit_enhanced.py`, the Checkpoint Manager, Fetch Cursor
and Harvest Orchestrator of spec sections 4.1, 4.2 and 4.4) is not
under the source tree — only its documentation
(`python_analysis/README_delta.md`, the delta UX notes) and the HTTP
glue that shells out to it are.  The definitions below follow the
words of the spec.  Platform item ids are natural numbers whose order
is the platform ordering (newer = larger). -/

/-- Modelled from the spec: harvest mode, the closed tagged variant of
design note 9.2 as resolved by `planHarvest` (DELTA or FULL). -/
inductive Mode where
  | DELTA
  | FULL
  deriving Repr, DecidableEq

/-- Modelled from the spec: the per-community checkpoint record
(section 3): `last_seen_id` (null on creation and after a reset),
`last_harvest_at`, `cumulative_item_count`. -/
structure Checkpoint where
  last_seen_id : Option Nat
  last_harvest_at : Nat
  cumulative_item_count : Nat
  deriving Repr, DecidableEq

/-- The `last_seen_id` a community's planning sees: none when the
community has no checkpoint record or the record holds null. -/
def effectiveLastSeen (cp : Option Checkpoint) : Option Nat :=
  cp.bind (fun c => c.last_seen_id)

/-- Modelled from the spec: the caps bounding one harvest call
(`delta_max_posts` / `full_max_posts` of the delta configuration). -/
structure HarvestConfig where
  deltaCap : Nat
  fullCap : Nat
  deriving Repr, DecidableEq

/-- Modelled from the spec: the plan returned by `planHarvest`
(section 4.1): mode, resume point and reason, plus the item cap
bounding the walk. -/
structure Plan where
  mode : Mode
  resumePoint : Option Nat
  itemCap : Nat
  reason : String
  deriving Repr, DecidableEq

/-- Modelled from the spec: `planHarvest` (section 4.1), decision
policy in order: (1) a caller-forced mode wins, reason "forced" (FULL
ignores the checkpoint); (2) no checkpoint → DELTA with the bounded
delta cap, reason "first harvest (bounded)"; (3) otherwise DELTA
resuming from `last_seen_id`. -/
def planHarvest (override : Option Mode) (lastSeen : Option Nat)
    (cfg : HarvestConfig) : Plan :=
  match override with
  | some Mode.FULL =>
      { mode := Mode.FULL, resumePoint := none, itemCap := cfg.fullCap
        reason := "forced" }
  | some Mode.DELTA =>
      { mode := Mode.DELTA, resumePoint := lastSeen, itemCap := cfg.deltaCap
        reason := "forced" }
  | none =>
      match lastSeen with
      | none =>
          { mode := Mode.DELTA, resumePoint := none, itemCap := cfg.deltaCap
            reason := "first harvest (bounded)" }
      | some r =>
          { mode := Mode.DELTA, resumePoint := some r, itemCap := cfg.deltaCap
            reason := "resume from checkpoint" }

/-- Modelled from the spec: the terminal condition of a cursor walk
(section 4.2): caught up at the resume point, budget exhausted, or
upstream history exhausted. -/
inductive StopCondition where
  | caughtUp
  | budgetExhausted
  | upstreamExhausted
  deriving Repr, DecidableEq

/-- Modelled from the spec: result of one cursor walk — the new item
ids (newest first) and the stop condition reached. -/
structure WalkResult where
  newItems : List Nat
  stop : StopCondition
  deriving Repr, DecidableEq

/-- Modelled from the spec: the Fetch Cursor `walk` (section 4.2) over
the upstream newest-first listing.  It proceeds down the listing until
an item with id equal to the resume point is encountered (that item
and everything after it is dropped), the item budget is exhausted, or
the listing ends. -/
def walk (upstream : List Nat) (resumePoint : Option Nat) (budget : Nat) :
    WalkResult :=
  match upstream, budget with
  | [], _ => { newItems := [], stop := StopCondition.upstreamExhausted }
  | _ :: _, 0 => { newItems := [], stop := StopCondition.budgetExhausted }
  | i :: rest, Nat.succ b =>
      if resumePoint = some i then
        { newItems := [], stop := StopCondition.caughtUp }
      else
        let w := walk rest resumePoint b
        { newItems := i :: w.newItems, stop := w.stop }

/-- Modelled from the spec: `commit` (section 4.1) — advance
`last_seen_id` to the newest id observed, refresh `last_harvest_at`,
add to the cumulative count; the checkpoint record is created on the
first successful harvest. -/
def commit (cp : Option Checkpoint) (newestSeenId : Nat)
    (itemsStored : Nat) (nowT : Nat) : Checkpoint :=
  match cp with
  | none =>
      { last_seen_id := some newestSeenId, last_harvest_at := nowT
        cumulative_item_count := itemsStored }
  | some c =>
      { last_seen_id := some newestSeenId, last_harvest_at := nowT
        cumulative_item_count := c.cumulative_item_count + itemsStored }

/-- Modelled from the spec: `reset` / `resetCheckpoint` (sections 4.1
and 6) — clear the community's `last_seen_id` back to null. -/
def resetCheckpoint (community : String)
    (st : String → Option Checkpoint) : String → Option Checkpoint :=
  fun s =>
    if s = community then
      (st community).map (fun c => { c with last_seen_id := none })
    else st s

/-- Modelled from the spec: terminal state of one community's harvest
state machine (section 4.4). -/
inductive Outcome where
  | DONE
  | FAILED
  deriving Repr, DecidableEq

/-- Modelled from the spec: the per-community result record emitted by
the orchestrator (section 4.4). -/
structure CommunityResult where
  community : String
  outcome : Outcome
  modeUsed : Mode
  reason : String
  itemsNew : Nat
  stopped : Option StopCondition
  errorMsg : Option String
  deriving Repr, DecidableEq

/-- Modelled from the spec: one community's harvesting environment —
the upstream newest-first listing and whether the upstream fetch and
the atomic batch store succeed on this run. -/
structure CommunityEnv where
  name : String
  upstream : List Nat
  fetchOk : Bool
  storeOk : Bool
  deriving Repr, DecidableEq

/-- Modelled from the spec: the per-community state machine of the
Harvest Orchestrator (section 4.4), PLANNING → FETCHING → STORING →
COMMITTING → DONE with FAILED reachable from the middle states.
Returns the community's checkpoint after the run and its result
record.  `commit` is called only after a successful store of a
non-empty batch, with the maximum id observed in the walk. -/
def runCommunity (cfg : HarvestConfig) (override : Option Mode)
    (env : CommunityEnv) (cp : Option Checkpoint) (nowT : Nat) :
    Option Checkpoint × CommunityResult :=
  let plan := planHarvest override (effectiveLastSeen cp) cfg
  if env.fetchOk = false then
    (cp, { community := env.name, outcome := Outcome.FAILED
           modeUsed := plan.mode, reason := plan.reason, itemsNew := 0
           stopped := none, errorMsg := some "upstream fetch failed" })
  else
    match walk env.upstream plan.resumePoint plan.itemCap with
    | { newItems := [], stop := stop } =>
        (cp, { community := env.name, outcome := Outcome.DONE
               modeUsed := plan.mode, reason := plan.reason, itemsNew := 0
               stopped := some stop, errorMsg := none })
    | { newItems := h :: tl, stop := stop } =>
        if env.storeOk = false then
          (cp, { community := env.name, outcome := Outcome.FAILED
                 modeUsed := plan.mode, reason := plan.reason, itemsNew := 0
                 stopped := some stop, errorMsg := some "storage of batch failed" })
        else
          (some (commit cp (tl.foldl Nat.max h) (h :: tl).length nowT),
           { community := env.name, outcome := Outcome.DONE
             modeUsed := plan.mode, reason := plan.reason
             itemsNew := (h :: tl).length, stopped := some stop
             errorMsg := none })

/-- Modelled from the spec: sequential batch processing of the
communities (section 4.4) — each community is carried through its own
state machine; a FAILED community leaves its checkpoint untouched and
the loop continues with the rest. -/
def harvestRun (cfg : HarvestConfig) (override : Option Mode)
    (envs : List CommunityEnv) (st : String → Option Checkpoint)
    (nowT : Nat) : (String → Option Checkpoint) × List CommunityResult :=
  match envs with
  | [] => (st, [])
  | e :: rest =>
      let step := runCommunity cfg override e (st e.name) nowT
      let st1 : String → Option Checkpoint :=
        fun s => if s = e.name then step.fst else st s
      let tail := harvestRun cfg override rest st1 nowT
      (tail.fst, step.snd :: tail.snd)

/-- Modelled from the spec: the caller-facing `harvest` operation
(sections 6 and 7): a configuration-class error (missing upstream
credentials, the check embedded from `getRedditAccessToken`) fails the
whole call before any per-community planning; otherwise every
community is processed and per-community failures are captured in the
result list. -/
def harvest (rc : RuntimeConfig) (cfg : HarvestConfig)
    (override : Option Mode) (envs : List CommunityEnv)
    (st : String → Option Checkpoint) (nowT : Nat) :
    Except String ((String → Option Checkpoint) × List CommunityResult) :=
  if rc.redditClientId = "" ∨ rc.redditClientSecret = "" then
    Except.error "Reddit API credentials are not configured."
  else
    Except.ok (harvestRun cfg override envs st nowT)

/-- The checkpoint ordering property of the spec: the `last_seen_id`
after a step is never older (by the platform ordering) than before —
whenever a value was set before, a value at least as new is set
after. -/
def checkpointAdvances (before after : Option Nat) : Prop :=
  ∀ r, before = some r → ∃ m, after = some m ∧ r ≤ m

/-! ## Helper lemmas -/

/-- The initial value bounds a `foldl Nat.max` from below. -/
theorem le_foldl_max (xs : List Nat) (x : Nat) : x ≤ xs.foldl Nat.max x := by
  induction xs generalizing x with
  | nil => exact Nat.le_refl x
  | cons y ys ih =>
      exact Nat.le_trans (Nat.le_max_left x y) (ih (Nat.max x y))

/-- Bound on the comment accumulation loop: each step appends at most
20 comments. -/
theorem foldl_take20_length_le (commentsOf : RedditPost → List RedditComment) :
    ∀ (l : List RedditPost) (acc : List RedditComment),
      (l.foldl (fun acc p => acc ++ (commentsOf p).take 20) acc).length ≤
        acc.length + 20 * l.length := by
  intro l
  induction l with
  | nil => intro acc; simp
  | cons p ps ih =>
      intro acc
      have h1 := ih (acc ++ (commentsOf p).take 20)
      have h2 : (acc ++ (commentsOf p).take 20).length ≤ acc.length + 20 := by
        have := List.length_take_le 20 (commentsOf p)
        simp only [List.length_append]
        omega
      simp only [List.foldl_cons]
      calc (ps.foldl (fun acc p => acc ++ (commentsOf p).take 20)
              (acc ++ (commentsOf p).take 20)).length
          ≤ (acc ++ (commentsOf p).take 20).length + 20 * ps.length := h1
        _ ≤ acc.length + 20 + 20 * ps.length := by omega
        _ ≤ acc.length + 20 * (ps.length + 1) := by omega
        _ = acc.length + 20 * (p :: ps).length := by simp [Nat.mul_succ]

/-! ## Claim theorems for the source-grounded components -/

/-- Claim C6 counterexample: on a store holding one harvested post,
the stats endpoint reports `totalPosts = 0`, not the actual count —
the returned values are not the correct counts of what is stored. -/
theorem statsHandler_counterexample :
    (statsHandler { posts := [("a", "p1")], comments := []
                    subredditNames := ["a"] }).stats.totalPosts ≠
      ({ posts := [("a", "p1")], comments := []
         subredditNames := ["a"] } : StoreSnapshot).posts.length := by
  decide

/-- Claim C6 (amended): for every state of the store, the stats
endpoint returns the same fixed placeholder response — all counts
zero, empty per-community list, `success = true` and a message that
stats are not available — independent of what is actually stored. -/
theorem statsHandler_placeholder_constant (s : StoreSnapshot) :
    statsHandler s = statsHandler { posts := [], comments := [], subredditNames := [] } ∧
    (statsHandler s).stats =
      { totalPosts := 0, totalComments := 0, totalSubreddits := 0, subreddits := [] } ∧
    (statsHandler s).success = true :=
  ⟨rfl, rfl, rfl⟩

/-- Claim C8: `getRedditAccessToken` returns the cached token without
any upstream request when the cached expiry exceeds now plus the
60-second buffer; otherwise it fetches a new token, caches it with
`expiresAt = now + expires_in * 1000`, and returns it; every token it
returns has an expiry timestamp at least `now`. -/
theorem getRedditAccessToken_cache_spec (tokenCache : Option CachedToken)
    (now : Nat) (rc : RuntimeConfig) (outcome : TokenFetchOutcome) :
    (∀ t, tokenCache = some t → now + TOKEN_EXPIRY_BUFFER < t.expiresAt →
      getRedditAccessToken tokenCache now rc outcome =
        Except.ok (t.accessToken, some t)) ∧
    ((tokenCache = none ∨
        ∃ t, tokenCache = some t ∧ ¬ now + TOKEN_EXPIRY_BUFFER < t.expiresAt) →
      rc.redditClientId ≠ "" → rc.redditClientSecret ≠ "" →
      ∀ r, outcome = TokenFetchOutcome.success r → r.access_token ≠ "" →
      getRedditAccessToken tokenCache now rc outcome =
        Except.ok (r.access_token,
          some { accessToken := r.access_token
                 expiresAt := now + r.expires_in * 1000 })) ∧
    (∀ tok c2, getRedditAccessToken tokenCache now rc outcome =
        Except.ok (tok, c2) →
      ∃ t, c2 = some t ∧ t.accessToken = tok ∧ now ≤ t.expiresAt) := by
  have hfetch : ∀ tok c2, fetchNewToken now rc outcome = Except.ok (tok, c2) →
      ∃ t, c2 = some t ∧ t.accessToken = tok ∧ now ≤ t.expiresAt := by
    intro tok c2 h
    unfold fetchNewToken at h
    split at h
    · exact absurd h (by simp)
    · cases outcome with
      | failure msg => exact absurd h (by simp)
      | success r =>
          simp only [] at h
          split at h
          · exact absurd h (by simp)
          · simp only [Except.ok.injEq, Prod.mk.injEq] at h
            exact ⟨_, h.2.symm, by rw [← h.1], Nat.le_add_right now _⟩
  refine ⟨?_, ?_, ?_⟩
  · intro t ht hval
    subst ht
    simp [getRedditAccessToken, hval]
  · intro hcold h1 h2 r hr hr2
    subst hr
    have hnew : fetchNewToken now rc (TokenFetchOutcome.success r) =
        Except.ok (r.access_token,
          some { accessToken := r.access_token
                 expiresAt := now + r.expires_in * 1000 }) := by
      unfold fetchNewToken
      rw [if_neg (by push_neg; exact ⟨h1, h2⟩)]
      simp [hr2]
    rcases hcold with hnone | ⟨t, ht, hexp⟩
    · subst hnone; simpa [getRedditAccessToken] using hnew
    · subst ht; simpa [getRedditAccessToken, hexp] using hnew
  · intro tok c2 h
    cases tokenCache with
    | none => exact hfetch tok c2 h
    | some t =>
        simp only [getRedditAccessToken] at h
        by_cases hval : now + TOKEN_EXPIRY_BUFFER < t.expiresAt
        · rw [if_pos hval] at h
          simp only [Except.ok.injEq, Prod.mk.injEq] at h
          refine ⟨t, h.2.symm, h.1, ?_⟩
          have : now ≤ now + TOKEN_EXPIRY_BUFFER := Nat.le_add_right _ _
          omega
        · rw [if_neg hval] at h
          exact hfetch tok c2 h

/-- Claim C8 witness: a concrete valid cached token is returned
unchanged even when the upstream fetch would fail. -/
theorem getRedditAccessToken_cache_spec_witness :
    getRedditAccessToken (some { accessToken := "tok", expiresAt := 100000000 })
      0 { redditClientId := "id", redditClientSecret := "sec" }
      (TokenFetchOutcome.failure "down") =
      Except.ok ("tok", some { accessToken := "tok", expiresAt := 100000000 }) :=
  (getRedditAccessToken_cache_spec
      (some { accessToken := "tok", expiresAt := 100000000 }) 0
      { redditClientId := "id", redditClientSecret := "sec" }
      (TokenFetchOutcome.failure "down")).1
    { accessToken := "tok", expiresAt := 100000000 } rfl (by decide)

/-- Claim C9: the per-call upstream work of the analyze-subreddit
endpoint is bounded — the requested post count is
`min(body.limit or 50, 100)` and so at most 100, comments are fetched
for at most `min(10, posts.length)` posts with at most 20 comments
kept per post, and at most 200 comments enter the analysis input. -/
theorem analyze_subreddit_work_bounded (bodyLimit : Option Nat)
    (posts : List RedditPost)
    (commentsOf : RedditPost → List RedditComment) :
    requestedPostLimit bodyLimit = min (jsNumOrDefault bodyLimit 50) 100 ∧
    requestedPostLimit bodyLimit ≤ 100 ∧
    (topPostsOf posts).length = min 10 posts.length ∧
    (allCommentsOf posts commentsOf).length ≤ 20 * (topPostsOf posts).length ∧
    (analysisCommentsOf posts commentsOf).length ≤ 200 := by
  refine ⟨rfl, Nat.min_le_right _ _, ?_, ?_, ?_⟩
  · simp only [topPostsOf, List.length_take]
    omega
  · have := foldl_take20_length_le commentsOf (topPostsOf posts) []
    simpa [allCommentsOf] using this
  · simp only [analysisCommentsOf, List.length_take]
    omega

/-- Claim C10: `fetchPostComments` never returns a comment whose body
is empty, deleted or removed, and returns the empty list on an
upstream fetch error instead of propagating it. -/
theorem fetchPostComments_clean (outcome : CommentsFetchOutcome) :
    (∀ c ∈ fetchPostComments outcome,
      c.body ≠ "" ∧ c.body ≠ "[deleted]" ∧ c.body ≠ "[removed]") ∧
    (∀ msg, fetchPostComments (CommentsFetchOutcome.failure msg) = []) := by
  constructor
  · intro c hc
    cases outcome with
    | failure msg => simp [fetchPostComments] at hc
    | success responseElems =>
        match responseElems with
        | [] => simp [fetchPostComments] at hc
        | [_] => simp [fetchPostComments] at hc
        | _ :: second :: _ =>
            simp only [fetchPostComments] at hc
            have hk := (List.mem_filter.mp hc).2
            simp only [keepComment, Bool.and_eq_true, Bool.not_eq_true',
              beq_eq_false_iff_ne, ne_eq] at hk
            exact ⟨hk.1.1, hk.1.2, hk.2⟩
  · intro msg; rfl

/-- Claim C10 witness: a concrete surviving comment has a clean body,
and a concrete failed fetch yields the empty list. -/
theorem fetchPostComments_clean_witness :
    (("hello" : String) ≠ "" ∧ ("hello" : String) ≠ "[deleted]" ∧
      ("hello" : String) ≠ "[removed]") ∧
    fetchPostComments (CommentsFetchOutcome.failure "timeout") = [] :=
  ⟨(fetchPostComments_clean
      (CommentsFetchOutcome.success [[], [{ body := "hello", score := 1 }]])).1
      { body := "hello", score := 1 } (by simp [fetchPostComments, keepComment]),
   (fetchPostComments_clean (CommentsFetchOutcome.failure "timeout")).2 "timeout"⟩

/-! ## Claim theorems for the harvesting core -/

/-- Claim C3: with no checkpoint and no caller-forced mode,
`planHarvest` chooses DELTA with the bounded delta item cap and reason
"first harvest (bounded)"; the FULL mode is planned only when the
caller explicitly forces it. -/
theorem planHarvest_first_harvest_bounded (cfg : HarvestConfig) :
    planHarvest none none cfg =
      { mode := Mode.DELTA, resumePoint := none, itemCap := cfg.deltaCap
        reason := "first harvest (bounded)" } ∧
    ∀ override lastSeen,
      (planHarvest override lastSeen cfg).mode = Mode.FULL →
        override = some Mode.FULL := by
  constructor
  · rfl
  · intro override lastSeen hm
    cases override with
    | none => cases lastSeen <;> simp [planHarvest] at hm
    | some m => cases m with
      | DELTA => simp [planHarvest] at hm
      | FULL => rfl

/-- Claim C3 witness: the first-harvest plan at a concrete
configuration, and a concrete forced-FULL plan. -/
theorem planHarvest_first_harvest_bounded_witness :
    planHarvest none none { deltaCap := 50, fullCap := 500 } =
      { mode := Mode.DELTA, resumePoint := none, itemCap := 50
        reason := "first harvest (bounded)" } ∧
    (some Mode.FULL : Option Mode) = some Mode.FULL :=
  ⟨(planHarvest_first_harvest_bounded { deltaCap := 50, fullCap := 500 }).1,
   (planHarvest_first_harvest_bounded { deltaCap := 50, fullCap := 500 }).2
     (some Mode.FULL) none rfl⟩

/-- Claim C5: `resetCheckpoint` clears the community's `last_seen_id`
back to null, and the plan for the very next harvest of that community
equals the plan for a community harvested for the very first time (no
checkpoint at all). -/
theorem resetCheckpoint_first_time_planning (st : String → Option Checkpoint)
    (community : String) (override : Option Mode) (cfg : HarvestConfig) :
    effectiveLastSeen (resetCheckpoint community st community) = none ∧
    planHarvest override
        (effectiveLastSeen (resetCheckpoint community st community)) cfg =
      planHarvest override (effectiveLastSeen (none : Option Checkpoint)) cfg := by
  have h : effectiveLastSeen (resetCheckpoint community st community) = none := by
    simp only [resetCheckpoint, if_pos rfl]
    cases st community <;> simp [effectiveLastSeen]
  exact ⟨h, by rw [h]; rfl⟩

/-- Claim C7: a configuration-class error (missing upstream
credentials) makes the whole `harvest` call fail fast, before any
per-community planning; with credentials configured the call always
returns the per-community result list, so no other error class aborts
the whole call. -/
theorem harvest_config_fail_fast (rc : RuntimeConfig) (cfg : HarvestConfig)
    (override : Option Mode) (envs : List CommunityEnv)
    (st : String → Option Checkpoint) (nowT : Nat) :
    (credentialsMissing rc →
      harvest rc cfg override envs st nowT =
        Except.error "Reddit API credentials are not configured.") ∧
    (¬ credentialsMissing rc →
      harvest rc cfg override envs st nowT =
        Except.ok (harvestRun cfg override envs st nowT)) := by
  constructor
  · intro hm
    simp [harvest, credentialsMissing] at hm ⊢
    tauto
  · intro hm
    simp [harvest, credentialsMissing] at hm ⊢
    tauto

/-- Claim C7 witness: a concrete call with a missing client id fails
fast, and a concrete configured call returns the result list. -/
theorem harvest_config_fail_fast_witness :
    harvest { redditClientId := "", redditClientSecret := "sec" }
        { deltaCap := 50, fullCap := 500 } none [] (fun _ => none) 0 =
      Except.error "Reddit API credentials are not configured." ∧
    harvest { redditClientId := "id", redditClientSecret := "sec" }
        { deltaCap := 50, fullCap := 500 } none [] (fun _ => none) 0 =
      Except.ok (harvestRun { deltaCap := 50, fullCap := 500 } none []
        (fun _ => none) 0) :=
  ⟨(harvest_config_fail_fast { redditClientId := "", redditClientSecret := "sec" }
      { deltaCap := 50, fullCap := 500 } none [] (fun _ => none) 0).1
      (Or.inl rfl),
   (harvest_config_fail_fast { redditClientId := "id", redditClientSecret := "sec" }
      { deltaCap := 50, fullCap := 500 } none [] (fun _ => none) 0).2
      (by simp [credentialsMissing])⟩

/-! ### Cursor walk lemmas -/

/-- On a strictly descending listing in which the resume point either
occurs or is older than everything listed, every item a resumed walk
returns is strictly newer than the resume point. -/
theorem walk_resume_lt (up : List Nat) (r : Nat)
    (hsort : List.Pairwise (fun a b => b < a) up)
    (hc : r ∈ up ∨ ∀ i ∈ up, r < i) :
    ∀ b, ∀ j ∈ (walk up (some r) b).newItems, r < j := by
  induction up with
  | nil => intro b j hj; simp [walk] at hj
  | cons i rest ih =>
      intro b j hj
      cases b with
      | zero => simp [walk] at hj
      | succ b =>
          rcases List.pairwise_cons.mp hsort with ⟨hlt, hrest⟩
          by_cases hri : (some r : Option Nat) = some i
          · simp [walk, hri] at hj
          · simp only [walk, if_neg hri] at hj
            have hri' : r ≠ i := fun h => hri (by rw [h])
            have hcomp' : r ∈ rest ∨ ∀ x ∈ rest, r < x := by
              rcases hc with hmem | hall
              · rcases List.mem_cons.mp hmem with he | hm
                · exact absurd he hri'
                · exact Or.inl hm
              · exact Or.inr fun x hx => hall x (List.mem_cons_of_mem _ hx)
            have hri2 : r < i := by
              rcases hc with hmem | hall
              · rcases List.mem_cons.mp hmem with he | hm
                · exact absurd he hri'
                · exact hlt r hm
              · exact hall i (List.mem_cons_self _ _)
            rcases List.mem_cons.mp hj with rfl | hj'
            · exact hri2
            · exact ih hrest hcomp' b j hj'

/-- A walk with no resume point returns the budget-bounded prefix of
the listing. -/
theorem walk_none_newItems (up : List Nat) :
    ∀ b, (walk up none b).newItems = up.take b := by
  induction up with
  | nil => intro b; cases b <;> simp [walk]
  | cons i rest ih =>
      intro b
      cases b with
      | zero => simp [walk]
      | succ b => simp [walk, ih b]

/-- A nonempty `take` starts at the head of the list. -/
theorem take_eq_cons_head (up : List Nat) (n : Nat) (h : Nat) (tl : List Nat)
    (he : up.take n = h :: tl) : ∃ us, up = h :: us := by
  cases up with
  | nil => simp at he
  | cons u us =>
      cases n with
      | zero => simp at he
      | succ n =>
          simp only [List.take_succ_cons, List.cons.injEq] at he
          exact ⟨us, by rw [he.1]⟩

/-! ### Orchestrator case lemmas -/

/-- `commit` always records the committed id as `last_seen_id`. -/
theorem commit_last_seen (cp : Option Checkpoint) (m n t : Nat) :
    (commit cp m n t).last_seen_id = some m := by
  cases cp <;> rfl

/-- One community run either leaves the checkpoint untouched, or ends
DONE having committed the maximum id of the nonempty batch the walk
returned. -/
theorem runCommunity_cases (cfg : HarvestConfig) (override : Option Mode)
    (env : CommunityEnv) (cp : Option Checkpoint) (nowT : Nat) :
    (runCommunity cfg override env cp nowT).fst = cp ∨
    (env.storeOk = true ∧ ∃ h tl,
      (walk env.upstream
        (planHarvest override (effectiveLastSeen cp) cfg).resumePoint
        (planHarvest override (effectiveLastSeen cp) cfg).itemCap).newItems
          = h :: tl ∧
      (runCommunity cfg override env cp nowT).fst =
        some (commit cp (tl.foldl Nat.max h) (h :: tl).length nowT)) := by
  obtain ⟨name, upstream, fetchOk, storeOk⟩ := env
  cases fetchOk with
  | false => exact Or.inl rfl
  | true =>
      simp only [runCommunity]
      rcases hw : walk upstream
          (planHarvest override (effectiveLastSeen cp) cfg).resumePoint
          (planHarvest override (effectiveLastSeen cp) cfg).itemCap
        with ⟨_ | ⟨h, tl⟩, stop⟩
      · simp
      · cases storeOk with
        | false => simp
        | true => exact Or.inr ⟨rfl, h, tl, rfl, rfl⟩

/-- A FAILED run leaves the checkpoint untouched and carries a
captured error message; the storage-failure path in particular never
commits. -/
theorem runCommunity_failed_spec (cfg : HarvestConfig) (override : Option Mode)
    (env : CommunityEnv) (cp : Option Checkpoint) (nowT : Nat) :
    ((runCommunity cfg override env cp nowT).snd.outcome = Outcome.FAILED →
      (runCommunity cfg override env cp nowT).fst = cp ∧
      ∃ msg, (runCommunity cfg override env cp nowT).snd.errorMsg = some msg) ∧
    (env.storeOk = false → (runCommunity cfg override env cp nowT).fst = cp) := by
  obtain ⟨name, upstream, fetchOk, storeOk⟩ := env
  cases fetchOk with
  | false => exact ⟨fun _ => ⟨rfl, "upstream fetch failed", rfl⟩, fun _ => rfl⟩
  | true =>
      simp only [runCommunity]
      rcases hw : walk upstream
          (planHarvest override (effectiveLastSeen cp) cfg).resumePoint
          (planHarvest override (effectiveLastSeen cp) cfg).itemCap
        with ⟨_ | ⟨h, tl⟩, stop⟩
      · simp
      · cases storeOk with
        | false => simp
        | true => simp

/-- Claim C1: for every community harvest over a newest-first listing
compatible with the community's timeline, the checkpoint `last_seen_id`
after a successful commit is never older than before the commit — the
checkpoint only moves forward. -/
theorem checkpoint_monotonic_after_commit (cfg : HarvestConfig)
    (override : Option Mode) (env : CommunityEnv) (cp : Option Checkpoint)
    (nowT : Nat)
    (hsort : List.Pairwise (fun a b => b < a) env.upstream)
    (hcompat : ∀ r, effectiveLastSeen cp = some r →
      r ∈ env.upstream ∨ ∀ i ∈ env.upstream, r < i) :
    checkpointAdvances (effectiveLastSeen cp)
      (effectiveLastSeen (runCommunity cfg override env cp nowT).fst) := by
  intro r hr
  rcases runCommunity_cases cfg override env cp nowT with
    hsame | ⟨_, h, tl, hni, hcommit⟩
  · exact ⟨r, by rw [hsame, hr], Nat.le_refl r⟩
  · refine ⟨tl.foldl Nat.max h, ?_, ?_⟩
    · rw [hcommit]
      simp [effectiveLastSeen, commit_last_seen]
    · rw [hr] at hni
      have hrh : r ≤ h := by
        cases override with
        | none =>
            simp only [planHarvest] at hni
            have hmem : h ∈ (walk env.upstream (some r) cfg.deltaCap).newItems := by
              rw [hni]; exact List.mem_cons_self _ _
            exact Nat.le_of_lt
              (walk_resume_lt env.upstream r hsort (hcompat r hr) _ h hmem)
        | some m =>
            cases m with
            | DELTA =>
                simp only [planHarvest] at hni
                have hmem : h ∈ (walk env.upstream (some r) cfg.deltaCap).newItems := by
                  rw [hni]; exact List.mem_cons_self _ _
                exact Nat.le_of_lt
                  (walk_resume_lt env.upstream r hsort (hcompat r hr) _ h hmem)
            | FULL =>
                simp only [planHarvest] at hni
                rw [walk_none_newItems] at hni
                obtain ⟨us, hup⟩ := take_eq_cons_head _ _ _ _ hni
                rcases hcompat r hr with hmem | hall
                · rw [hup] at hmem hsort
                  rcases List.mem_cons.mp hmem with he | hm
                  · exact Nat.le_of_eq he
                  · exact Nat.le_of_lt ((List.pairwise_cons.mp hsort).1 r hm)
                · rw [hup] at hall
                  exact Nat.le_of_lt (hall h (List.mem_cons_self _ _))
      exact Nat.le_trans hrh (le_foldl_max tl h)

/-- Claim C1 witness: a concrete resumed harvest moves the checkpoint
from id 3 forward. -/
theorem checkpoint_monotonic_after_commit_witness :
    ∃ m, effectiveLastSeen (runCommunity { deltaCap := 50, fullCap := 500 }
        none { name := "a", upstream := [7, 5, 3], fetchOk := true, storeOk := true }
        (some { last_seen_id := some 3, last_harvest_at := 0
                cumulative_item_count := 1 }) 1).fst = some m ∧ 3 ≤ m :=
  checkpoint_monotonic_after_commit { deltaCap := 50, fullCap := 500 } none
    { name := "a", upstream := [7, 5, 3], fetchOk := true, storeOk := true }
    (some { last_seen_id := some 3, last_harvest_at := 0
            cumulative_item_count := 1 }) 1
    (by decide)
    (fun r hr => by
      have h3 : (some 3 : Option Nat) = some r := hr
      injection h3 with h
      subst h
      exact Or.inl (by decide))
    3 rfl

/-- Claim C2: when storing the fetched batch fails, the run leaves the
checkpoint untouched (commit is never called on the FAILED path), so
the next run's planning sees exactly the pre-harvest checkpoint. -/
theorem store_failure_leaves_checkpoint (cfg : HarvestConfig)
    (override : Option Mode) (env : CommunityEnv) (cp : Option Checkpoint)
    (nowT : Nat) :
    (env.storeOk = false → (runCommunity cfg override env cp nowT).fst = cp) ∧
    ((runCommunity cfg override env cp nowT).snd.outcome = Outcome.FAILED →
      (runCommunity cfg override env cp nowT).fst = cp) ∧
    (env.storeOk = false → ∀ override2,
      planHarvest override2
          (effectiveLastSeen (runCommunity cfg override env cp nowT).fst) cfg =
        planHarvest override2 (effectiveLastSeen cp) cfg) := by
  have hspec := runCommunity_failed_spec cfg override env cp nowT
  exact ⟨hspec.2, fun hf => (hspec.1 hf).1,
    fun hs override2 => by rw [hspec.2 hs]⟩

/-- Claim C2 witness: a concrete failing store leaves a community with
no checkpoint still without one. -/
theorem store_failure_leaves_checkpoint_witness :
    (runCommunity { deltaCap := 50, fullCap := 500 } none
      { name := "a", upstream := [5, 3], fetchOk := true, storeOk := false }
      none 0).fst = none :=
  (store_failure_leaves_checkpoint { deltaCap := 50, fullCap := 500 } none
    { name := "a", upstream := [5, 3], fetchOk := true, storeOk := false }
    none 0).1 rfl

/-- Claim C4: a community whose run FAILS does not abort the batch —
its result record carries a captured error, its checkpoint state is
untouched so the remaining communities are processed exactly as they
would be without it, and every community contributes exactly one
result record. -/
theorem harvest_failure_isolation (cfg : HarvestConfig)
    (override : Option Mode) (nowT : Nat) (e : CommunityEnv)
    (rest : List CommunityEnv) (st : String → Option Checkpoint)
    (hfail : (runCommunity cfg override e (st e.name) nowT).snd.outcome =
      Outcome.FAILED) :
    harvestRun cfg override (e :: rest) st nowT =
      ((harvestRun cfg override rest st nowT).fst,
        (runCommunity cfg override e (st e.name) nowT).snd ::
          (harvestRun cfg override rest st nowT).snd) ∧
    (∃ msg, (runCommunity cfg override e (st e.name) nowT).snd.errorMsg =
      some msg) ∧
    ∀ envs st2, (harvestRun cfg override envs st2 nowT).snd.length =
      envs.length := by
  have hspec := runCommunity_failed_spec cfg override e (st e.name) nowT
  have hfst := (hspec.1 hfail).1
  have hst1 : (fun s => if s = e.name then
      (runCommunity cfg override e (st e.name) nowT).fst else st s) = st := by
    funext s
    by_cases h : s = e.name
    · rw [if_pos h, hfst, h]
    · rw [if_neg h]
  refine ⟨?_, (hspec.1 hfail).2, ?_⟩
  · simp only [harvestRun]
    rw [hst1]
  · intro envs
    induction envs with
    | nil => intro st2; rfl
    | cons e2 rest2 ih =>
        intro st2
        simp only [harvestRun, List.length_cons, ih]

/-- Claim C4 witness: with community A failing permanently upstream
and community B healthy, the batch yields A's failure record followed
by exactly the results of processing B alone. -/
theorem harvest_failure_isolation_witness :
    harvestRun { deltaCap := 50, fullCap := 500 } none
        [{ name := "A", upstream := [5], fetchOk := false, storeOk := true },
         { name := "B", upstream := [5], fetchOk := true, storeOk := true }]
        (fun _ => none) 0 =
      ((harvestRun { deltaCap := 50, fullCap := 500 } none
          [{ name := "B", upstream := [5], fetchOk := true, storeOk := true }]
          (fun _ => none) 0).fst,
        (runCommunity { deltaCap := 50, fullCap := 500 } none
            { name := "A", upstream := [5], fetchOk := false, storeOk := true }
            none 0).snd ::
          (harvestRun { deltaCap := 50, fullCap := 500 } none
            [{ name := "B", upstream := [5], fetchOk := true, storeOk := true }]
            (fun _ => none) 0).snd) :=
  (harvest_failure_isolation { deltaCap := 50, fullCap := 500 } none 0
    { name := "A", upstream := [5], fetchOk := false, storeOk := true }
    [{ name := "B", upstream := [5], fetchOk := true, storeOk := true }]
    (fun _ => none) rfl).1

end RedditRepo
